import Mathlib

/-!
Shallow embedding of the configuration manager of yashikota/owata
(package `config`) and theorems checking its natural-language
specification.

The repository ships two revisions of the config package:
the one in `src/config/config.go` and a later one in
`src/unnamed/part_001` (the revision exercised by the current test file
`src/config/config_test.go`, which swaps the platform config-directory
resolver via `SetTestConfigDir`).  The shared data model and the
functions where both revisions agree are embedded at top level from
`src/config/config.go`; the functions where the later revision differs
(`GetPathWithError`, `fileExists`, `Load`, `LoadFromPath`) are embedded
from `src/unnamed/part_001` inside namespace `P1`.

File contents, paths and displayed text are modelled as lists of
characters.  The file system is a map from paths to what `os.Stat` and
`os.ReadFile` can observe there, together with the set of existing
directories (consulted by `os.WriteFile` and extended by `os.MkdirAll`).
The platform home/user-config directory (`os.UserHomeDir` resp.
`os.UserConfigDir`) is passed in explicitly as an `Option`, `none`
meaning the resolver fails.
-/

/-- Text (file contents, paths, rendered output) as a list of characters.
Go strings are byte slices; every content these claims touch is treated at
character granularity. -/
abbrev Str := List Char

/-- Converts a Lean string literal to the character-list representation. -/
def str (s : String) : Str := s.toList

namespace Owata

/-- `ConfigFileName` from config.go: the fixed configuration file name. -/
def configFileName : Str := str "owata-config.json"

/-- `Config` from config.go: three string fields with JSON tags
`webhook_url`, `username`, `avatar_url` (in this struct order). -/
structure Config where
  WebhookURL : Str
  Username : Str
  AvatarURL : Str
deriving DecidableEq, Repr

/-- The zero value of `Config` (all fields empty), the starting point of
`json.Unmarshal` into a fresh `Config`. -/
def zeroConfig : Config := ⟨[], [], []⟩

/-- A JSON value as far as decoding into `Config` goes: a JSON string, or
any other well-formed JSON value, which `json.Unmarshal` rejects when it
appears at a key bound to a string-typed field. -/
inductive JsonValue where
  | string (s : Str)
  | nonString
deriving DecidableEq, Repr

/-- Contents of a file as far as the config manager goes: a well-formed
JSON object (its key/value pairs in textual order, keys possibly repeated)
or malformed data that `json.Unmarshal` rejects outright. -/
inductive FileContent where
  | jsonObj (fields : List (Str × JsonValue))
  | malformed (raw : Str)
deriving DecidableEq, Repr

/-- What `os.Stat` / `os.ReadFile` observe at one path. -/
inductive Entry where
  /-- `os.Stat` fails with an `IsNotExist` error. -/
  | absent
  /-- The path is a directory. -/
  | dir
  /-- A readable regular file with the given contents. -/
  | file (content : FileContent)
  /-- `os.Stat` succeeds on a regular file but reading it fails. -/
  | unreadable
  /-- `os.Stat` fails with an error other than `IsNotExist`
  (for example permission denied on a parent); reading fails too. -/
  | statErr
deriving DecidableEq, Repr

/-- A file-system state: an entry at each path, plus which directories
exist (consulted by writes, extended by `os.MkdirAll`). -/
structure FS where
  entries : Str → Entry
  dirExists : Str → Bool

/-- `filepath.Join` of two components (the model keeps paths uncleaned). -/
def joinPath (a b : Str) : Str := a ++ '/' :: b

/-- `filepath.Dir`: everything before the last separator, `"."` when the
path has no separator. -/
def dirOf (p : Str) : Str :=
  if p.contains '/' then ((p.reverse.dropWhile (fun c => c ≠ '/')).drop 1).reverse
  else str "."

/-- The error taxonomy of the config manager, one constructor per distinct
failure site (each site builds a distinct message in the source). -/
inductive Err where
  /-- could not determine home / user-config directory. -/
  | pathResolution
  /-- config file not found: neither local nor global exists. -/
  | neitherExists (localPath globalPath : Str)
  /-- config file not found at the given path. -/
  | notFound (path : Str)
  /-- failed to read config file. -/
  | readError
  /-- failed to parse config file. -/
  | parseError
  /-- failed to write config file. -/
  | writeError
  /-- failed to create config template. -/
  | templateWriteError
  /-- part_001 Load: failed to get global config path. -/
  | globalPathError
  /-- part_001 Load: global config file not found at the given path. -/
  | globalNotFound (path : Str)
  /-- part_001 fileExists: a stat error other than IsNotExist. -/
  | statError
deriving DecidableEq, Repr

/-- `os.ReadFile`: succeeds exactly on a readable regular file. -/
def readFile (fs : FS) (path : Str) : Option FileContent :=
  match fs.entries path with
  | .file content => some content
  | _ => none

/-- `os.WriteFile`: fails when the parent directory is missing or the
path is a directory; otherwise creates or overwrites the regular file. -/
def writeFile (fs : FS) (path : Str) (content : FileContent) : Option FS :=
  if fs.dirExists (dirOf path) then
    match fs.entries path with
    | .dir => none
    | _ => some { fs with entries := fun p => if p = path then .file content else fs.entries p }
  else none

/-- `os.MkdirAll`: afterwards the directory exists (failure modes of
MkdirAll are not exercised by any claim and are not modelled). -/
def mkdirAll (fs : FS) (d : Str) : FS :=
  { fs with dirExists := fun p => if p = d then true else fs.dirExists p }

/-- The key of the `WebhookURL` field. -/
def keyWebhook : Str := str "webhook_url"

/-- The key of the `Username` field. -/
def keyUsername : Str := str "username"

/-- The key of the `AvatarURL` field. -/
def keyAvatar : Str := str "avatar_url"

/-- Key matching of `encoding/json`: an object key is matched to a struct
field preferring an exact match but also accepting a case-insensitive one
(`strings.EqualFold`).  The three tags here stay pairwise distinct under
folding, so per-key matching reduces to fold equality; folding is modelled
at ASCII granularity (the tags themselves are ASCII). -/
def keyMatches (k tag : Str) : Bool :=
  k.map Char.toLower == tag.map Char.toLower

/-- One field of the JSON object as processed by `json.Unmarshal` into a
`Config`: a key matching a recognized field, exactly or case-insensitively,
sets that field (rejecting a non-string value); any other key is skipped
regardless of its value. -/
def applyField (k : Str) (v : JsonValue) (acc : Config) : Option Config :=
  if keyMatches k keyWebhook then
    match v with
    | .string s => some { acc with WebhookURL := s }
    | .nonString => none
  else if keyMatches k keyUsername then
    match v with
    | .string s => some { acc with Username := s }
    | .nonString => none
  else if keyMatches k keyAvatar then
    match v with
    | .string s => some { acc with AvatarURL := s }
    | .nonString => none
  else some acc

/-- Processes the object's fields left to right (so a repeated key keeps
its last value, as `encoding/json` does). -/
def unmarshalFields : List (Str × JsonValue) → Config → Option Config
  | [], acc => some acc
  | (k, v) :: rest, acc =>
    match applyField k v acc with
    | none => none
    | some acc2 => unmarshalFields rest acc2

/-- `json.Unmarshal(data, &config)` with `config` at its zero value. -/
def unmarshalConfig : FileContent → Option Config
  | .jsonObj fields => unmarshalFields fields zeroConfig
  | .malformed _ => none

/-- `json.MarshalIndent` of a `Config`: a JSON object with exactly the
three tagged fields, in struct order. -/
def marshalConfig (c : Config) : FileContent :=
  .jsonObj [(keyWebhook, .string c.WebhookURL),
            (keyUsername, .string c.Username),
            (keyAvatar, .string c.AvatarURL)]

/-- `fileExists` from src/config/config.go: on a stat error it returns
`!os.IsNotExist(err)` (so a non-IsNotExist error counts as existing), and
on success it returns `!info.IsDir()`. -/
def fileExists (fs : FS) (path : Str) : Bool :=
  match fs.entries path with
  | .absent => false
  | .statErr => true
  | .dir => false
  | .file _ => true
  | .unreadable => true

/-- `Manager.GetPath` from src/config/config.go: global resolves under
`$HOME/.config`, falling back to the local file name when the home
directory cannot be determined; local is the fixed file name. -/
def GetPath (homeDir : Option Str) (global : Bool) : Str :=
  if global then
    match homeDir with
    | none => configFileName
    | some h => joinPath (joinPath h (str ".config")) configFileName
  else configFileName

/-- `Manager.GetPathWithError` from src/config/config.go: like `GetPath`
but surfacing the home-directory resolution failure to the caller. -/
def GetPathWithError (homeDir : Option Str) (global : Bool) : Str × Option Err :=
  if global then
    match homeDir with
    | none => (configFileName, some .pathResolution)
    | some h => (joinPath (joinPath h (str ".config")) configFileName, none)
  else (configFileName, none)

/-- `Manager.LoadFromPath` from src/config/config.go: not-found when
`fileExists` is false, then read, then parse. -/
def LoadFromPath (fs : FS) (path : Str) : Except Err Config :=
  if fileExists fs path then
    match readFile fs path with
    | none => .error .readError
    | some content =>
      match unmarshalConfig content with
      | none => .error .parseError
      | some c => .ok c
  else .error (.notFound path)

/-- `Manager.Load` from src/config/config.go, returning the Go triple
`(*Config, string, error)`: picks global when preferred and existing,
else local when existing, else global when existing, else fails. -/
def Load (fs : FS) (homeDir : Option Str) (preferGlobal : Bool) :
    Option Config × Str × Option Err :=
  let localPath := GetPath homeDir false
  let globalPath := GetPath homeDir true
  let localExists := fileExists fs localPath
  let globalExists := fileExists fs globalPath
  let chosen : Option Str :=
    if preferGlobal && globalExists then some globalPath
    else if localExists then some localPath
    else if globalExists then some globalPath
    else none
  match chosen with
  | none => (none, [], some (.neitherExists localPath globalPath))
  | some configPath =>
    match LoadFromPath fs configPath with
    | .error e => (none, configPath, some e)
    | .ok c => (some c, configPath, none)

/-- `Manager.SaveToPath` from src/config/config.go: marshal (which cannot
fail on this struct) and write. -/
def SaveToPath (fs : FS) (config : Config) (path : Str) : Option Err × FS :=
  match writeFile fs path (marshalConfig config) with
  | none => (some .writeError, fs)
  | some fs2 => (none, fs2)

/-- `Manager.Save` from src/config/config.go: for the global location
first `MkdirAll` the parent directory, then `SaveToPath`. -/
def Save (fs : FS) (homeDir : Option Str) (config : Config) (global : Bool) :
    (Str × Option Err) × FS :=
  let configPath := GetPath homeDir global
  let fs1 := if global then mkdirAll fs (dirOf configPath) else fs
  let r := SaveToPath fs1 config configPath
  ((configPath, r.1), r.2)

/-- The template written by `CreateTemplate`: all three fields empty
(the source's literal equals `MarshalIndent` of the zero config). -/
def templateContent : FileContent :=
  .jsonObj [(keyWebhook, .string []), (keyUsername, .string []), (keyAvatar, .string [])]

/-- `Manager.CreateTemplate` from src/config/config.go: for global first
`MkdirAll`; if the file already exists return `created = false` without
touching it; otherwise write the template and return `created = true`. -/
def CreateTemplate (fs : FS) (homeDir : Option Str) (global : Bool) :
    (Str × Bool × Option Err) × FS :=
  let configPath := GetPath homeDir global
  let fs1 := if global then mkdirAll fs (dirOf configPath) else fs
  if fileExists fs1 configPath then ((configPath, false, none), fs1)
  else
    match writeFile fs1 configPath templateContent with
    | none => ((configPath, false, some .templateWriteError), fs1)
    | some fs2 => ((configPath, true, none), fs2)

/-- The masking in `Manager.DisplayConfig`: a webhook URL longer than 10
characters is shown as `...` followed by its last 10 characters only. -/
def maskedWebhook (url : Str) : Str :=
  if url.length > 10 then str "..." ++ url.drop (url.length - 10) else url

/-- The webhook line of `DisplayConfig`. -/
def webhookLine (c : Config) : Str :=
  if c.WebhookURL ≠ [] then
    str "  🔗 Webhook URL: " ++ maskedWebhook c.WebhookURL ++ str "\n"
  else str "  🔗 Webhook URL: (not set)\n"

/-- The username line of `DisplayConfig`. -/
def usernameLine (c : Config) : Str :=
  if c.Username ≠ [] then str "  👤 Username: " ++ c.Username ++ str "\n"
  else str "  👤 Username: (not set)\n"

/-- The avatar line of `DisplayConfig`. -/
def avatarLine (c : Config) : Str :=
  if c.AvatarURL ≠ [] then str "  🖼️  Avatar URL: " ++ c.AvatarURL ++ str "\n"
  else str "  🖼️  Avatar URL: (not set)\n"

/-- The full text built by `DisplayConfig` for a loaded config. -/
def displayOutput (path : Str) (c : Config) : Str :=
  str "\n📋 Current configuration (" ++ path ++ str "):\n" ++
    webhookLine c ++ usernameLine c ++ avatarLine c

/-- `Manager.DisplayConfig` from src/config/config.go: load the path and
render the three fields, or propagate the load error. -/
def DisplayConfig (fs : FS) (path : Str) : Except Err Str :=
  match LoadFromPath fs path with
  | .error e => .error e
  | .ok c => .ok (displayOutput path c)

namespace P1

/-- `Manager.GetPathWithError` from src/unnamed/part_001: global joins the
platform user-config directory (`os.UserConfigDir`) with the file name and
fails with an empty path when the resolver fails; local is the fixed
file name. -/
def GetPathWithError (configDir : Option Str) (global : Bool) : Str × Option Err :=
  if global then
    match configDir with
    | none => ([], some .pathResolution)
    | some d => (joinPath d configFileName, none)
  else (configFileName, none)

/-- `fileExists` from src/unnamed/part_001: `(false, nil)` on IsNotExist,
`(false, err)` on another stat error, `(!IsDir, nil)` on success.  The
call sites in that revision use only the boolean component. -/
def fileExists (fs : FS) (path : Str) : Bool × Option Err :=
  match fs.entries path with
  | .absent => (false, none)
  | .statErr => (false, some .statError)
  | .dir => (false, none)
  | .file _ => (true, none)
  | .unreadable => (true, none)

/-- `Manager.LoadFromPath` from src/unnamed/part_001 (the not-found error
wraps the sentinel `ErrConfigFileNotFound`). -/
def LoadFromPath (fs : FS) (path : Str) : Except Err Config :=
  if (fileExists fs path).1 then
    match readFile fs path with
    | none => .error .readError
    | some content =>
      match unmarshalConfig content with
      | none => .error .parseError
      | some c => .ok c
  else .error (.notFound path)

/-- `Manager.Load` from src/unnamed/part_001: a global-path resolution
failure surfaces early when global is preferred; with `preferGlobal` the
global file must exist (no fallback to local); otherwise local is
preferred with fallback to global. -/
def Load (fs : FS) (configDir : Option Str) (preferGlobal : Bool) :
    Option Config × Str × Option Err :=
  let localPath := (GetPathWithError configDir false).1
  let globalRes := GetPathWithError configDir true
  let globalPath := globalRes.1
  if preferGlobal && globalRes.2.isSome then (none, [], some .globalPathError)
  else
    let localExists := (fileExists fs localPath).1
    let globalExists := (fileExists fs globalPath).1
    if preferGlobal then
      if !globalExists then (none, [], some (.globalNotFound globalPath))
      else
        match LoadFromPath fs globalPath with
        | .error e => (none, globalPath, some e)
        | .ok c => (some c, globalPath, none)
    else if localExists then
      match LoadFromPath fs localPath with
      | .error e => (none, localPath, some e)
      | .ok c => (some c, localPath, none)
    else if globalExists then
      match LoadFromPath fs globalPath with
      | .error e => (none, globalPath, some e)
      | .ok c => (some c, globalPath, none)
    else (none, [], some (.neitherExists localPath globalPath))

end P1

end Owata

namespace Owata

/-- Round trip at the JSON level: decoding an encoded config restores it. -/
theorem unmarshal_marshal (cfg : Config) : unmarshalConfig (marshalConfig cfg) = some cfg := by
  cases cfg
  rfl

/-- C2: with preferGlobal=false, Load returns the local file's contents
whenever the local file exists (however the global path looks); when only
the global file exists it returns the global file's contents; when
neither exists it fails with the neither-exists error. -/
theorem load_local_preferred (fs : FS) (homeDir : Option Str) :
    (∀ content cfg, fs.entries (GetPath homeDir false) = .file content →
        unmarshalConfig content = some cfg →
        Load fs homeDir false = (some cfg, GetPath homeDir false, none)) ∧
    (∀ content cfg, fileExists fs (GetPath homeDir false) = false →
        fs.entries (GetPath homeDir true) = .file content →
        unmarshalConfig content = some cfg →
        Load fs homeDir false = (some cfg, GetPath homeDir true, none)) ∧
    (fileExists fs (GetPath homeDir false) = false →
        fileExists fs (GetPath homeDir true) = false →
        Load fs homeDir false =
          (none, [], some (.neitherExists (GetPath homeDir false) (GetPath homeDir true)))) := by
  refine ⟨?_, ?_, ?_⟩
  · intro content cfg h1 h2
    have hl : fileExists fs (GetPath homeDir false) = true := by
      simp [fileExists, h1]
    simp [Load, LoadFromPath, hl, readFile, h1, h2]
  · intro content cfg h0 h1 h2
    have hg : fileExists fs (GetPath homeDir true) = true := by
      simp [fileExists, h1]
    simp [Load, LoadFromPath, h0, hg, readFile, h1, h2]
  · intro h0 hg
    simp [Load, h0, hg]

/-- A file system with only the local config file present. -/
def fsLocalOnly : FS :=
  { entries := fun p => if p = configFileName then .file (.jsonObj []) else .absent,
    dirExists := fun _ => true }

theorem load_local_preferred_witness :
    Load fsLocalOnly (some (str "home")) false =
      (some zeroConfig, GetPath (some (str "home")) false, none) :=
  (load_local_preferred fsLocalOnly (some (str "home"))).1 (.jsonObj []) zeroConfig
    (by decide) (by decide)

/-- C1: the part_001 revision of Manager.Load with preferGlobal=true fails
whenever the global config file does not exist, even though the local file
exists: it never falls back to the local file. -/
theorem load_prefer_global_strict (fs : FS) (configDir : Option Str)
    (hlocal : (P1.fileExists fs (P1.GetPathWithError configDir false).1).1 = true)
    (hglobal : (P1.fileExists fs (P1.GetPathWithError configDir true).1).1 = false) :
    ∃ e, P1.Load fs configDir true = (none, [], some e) := by
  cases configDir with
  | none => exact ⟨.globalPathError, by simp [P1.Load, P1.GetPathWithError]⟩
  | some d =>
    have hg : (P1.fileExists fs (joinPath d configFileName)).1 = false := by
      simpa [P1.GetPathWithError] using hglobal
    exact ⟨.globalNotFound (joinPath d configFileName), by simp [P1.Load, P1.GetPathWithError, hg]⟩

theorem load_prefer_global_strict_witness :
    ∃ e, P1.Load fsLocalOnly (some (str "cfg")) true = (none, [], some e) :=
  load_prefer_global_strict fsLocalOnly (some (str "cfg")) (by decide) (by decide)

/-- C3: global path resolution fails with the path-resolution error when
the platform directory cannot be determined (in both revisions), that
error is distinguishable from the not-found error, and the local path
always resolves to the fixed file name with no error. -/
theorem getPathWithError_resolution (homeDir configDir : Option Str) :
    (homeDir = none → (GetPathWithError homeDir true).2 = some .pathResolution) ∧
    (configDir = none → P1.GetPathWithError configDir true = ([], some .pathResolution)) ∧
    (∀ p, Err.pathResolution ≠ Err.notFound p) ∧
    (GetPathWithError homeDir false = (configFileName, none)) ∧
    (P1.GetPathWithError configDir false = (configFileName, none)) := by
  refine ⟨?_, ?_, ?_, ?_, ?_⟩
  · rintro rfl; simp [GetPathWithError]
  · rintro rfl; simp [P1.GetPathWithError]
  · exact fun p h => Err.noConfusion h
  · simp [GetPathWithError]
  · simp [P1.GetPathWithError]

theorem getPathWithError_resolution_witness :
    (GetPathWithError none true).2 = some .pathResolution ∧
      P1.GetPathWithError none true = ([], some .pathResolution) :=
  ⟨(getPathWithError_resolution none none).1 rfl,
   (getPathWithError_resolution none none).2.1 rfl⟩


/-- MkdirAll changes no file entry. -/
theorem mkdirAll_entries (fs : FS) (d : Str) : (mkdirAll fs d).entries = fs.entries := rfl

/-- The successful write performed by SaveToPath, made explicit. -/
theorem saveToPath_eq (fs : FS) (cfg : Config) (path : Str)
    (hdir : fs.dirExists (dirOf path) = true) (hnotdir : fs.entries path ≠ .dir) :
    SaveToPath fs cfg path =
      (none, { fs with entries := fun p => if p = path then .file (marshalConfig cfg) else fs.entries p }) := by
  unfold SaveToPath writeFile
  rw [hdir]
  cases he : fs.entries path with
  | dir => exact absurd he hnotdir
  | absent => simp [he]
  | file c => simp [he]
  | unreadable => simp [he]
  | statErr => simp [he]

/-- C4: saving a config to a path and loading from the same path succeeds
and returns the same value; serialization is deterministic with a stable
field order (exactly the three tagged keys, in struct order). -/
theorem save_load_roundtrip (fs : FS) (path : Str) (cfg : Config)
    (hdir : fs.dirExists (dirOf path) = true)
    (hnotdir : fs.entries path ≠ .dir) :
    (SaveToPath fs cfg path).1 = none ∧
    LoadFromPath (SaveToPath fs cfg path).2 path = .ok cfg ∧
    marshalConfig cfg = .jsonObj [(keyWebhook, .string cfg.WebhookURL),
      (keyUsername, .string cfg.Username), (keyAvatar, .string cfg.AvatarURL)] ∧
    (∀ c2 : Config, cfg.WebhookURL = c2.WebhookURL → cfg.Username = c2.Username →
      cfg.AvatarURL = c2.AvatarURL → marshalConfig cfg = marshalConfig c2) := by
  have hw := saveToPath_eq fs cfg path hdir hnotdir
  refine ⟨by rw [hw], ?_, rfl, ?_⟩
  · rw [hw]
    simp [LoadFromPath, fileExists, readFile, unmarshal_marshal]
  · intro c2 e1 e2 e3
    unfold marshalConfig
    rw [e1, e2, e3]

/-- A file system with nothing in it but every directory present. -/
def fsEmpty : FS := { entries := fun _ => .absent, dirExists := fun _ => true }

theorem save_load_roundtrip_witness :
    (SaveToPath fsEmpty ⟨str "https://example.com/webhook", str "Owata", []⟩ configFileName).1 = none ∧
    LoadFromPath (SaveToPath fsEmpty ⟨str "https://example.com/webhook", str "Owata", []⟩ configFileName).2
        configFileName =
      .ok ⟨str "https://example.com/webhook", str "Owata", []⟩ :=
  ⟨(save_load_roundtrip fsEmpty configFileName _ (by decide) (by decide)).1,
   (save_load_roundtrip fsEmpty configFileName _ (by decide) (by decide)).2.1⟩

/-- C5: CreateTemplate on an initially empty location creates the template
(all three fields empty) and reports created=true; a second call reports
created=false with the same path and leaves the file content unchanged;
and on any state where the file already exists it reports created=false
without modifying any entry. -/
theorem createTemplate_idempotent (fs : FS) (homeDir : Option Str) (global : Bool)
    (habsent : fs.entries (GetPath homeDir global) = .absent)
    (hdir : global = false → fs.dirExists (dirOf (GetPath homeDir global)) = true) :
    (CreateTemplate fs homeDir global).1 = (GetPath homeDir global, true, none) ∧
    (CreateTemplate fs homeDir global).2.entries (GetPath homeDir global) = .file templateContent ∧
    (CreateTemplate (CreateTemplate fs homeDir global).2 homeDir global).1 =
      (GetPath homeDir global, false, none) ∧
    (CreateTemplate (CreateTemplate fs homeDir global).2 homeDir global).2.entries
        (GetPath homeDir global) =
      (CreateTemplate fs homeDir global).2.entries (GetPath homeDir global) ∧
    (∀ fs0 : FS, fileExists fs0 (GetPath homeDir global) = true →
      (CreateTemplate fs0 homeDir global).1 = (GetPath homeDir global, false, none) ∧
      (CreateTemplate fs0 homeDir global).2.entries = fs0.entries) := by
  cases global with
  | false =>
    have hd := hdir rfl
    have h1 : CreateTemplate fs homeDir false =
        ((GetPath homeDir false, true, none),
         { fs with entries := fun p =>
            if p = GetPath homeDir false then .file templateContent else fs.entries p }) := by
      simp [CreateTemplate, fileExists, habsent, writeFile, hd]
    refine ⟨by rw [h1], by rw [h1]; simp, ?_, ?_, ?_⟩
    · rw [h1]
      simp [CreateTemplate, fileExists]
    · rw [h1]
      simp [CreateTemplate, fileExists]
    · intro fs0 hex
      simp [CreateTemplate, hex]
  | true =>
    have h1 : CreateTemplate fs homeDir true =
        ((GetPath homeDir true, true, none),
         { entries := fun p =>
            if p = GetPath homeDir true then .file templateContent else fs.entries p,
           dirExists := fun p =>
            if p = dirOf (GetPath homeDir true) then true else fs.dirExists p }) := by
      simp [CreateTemplate, mkdirAll, fileExists, habsent, writeFile]
    refine ⟨by rw [h1], by rw [h1]; simp, ?_, ?_, ?_⟩
    · rw [h1]
      simp [CreateTemplate, mkdirAll, fileExists]
    · rw [h1]
      simp [CreateTemplate, mkdirAll, fileExists]
    · intro fs0 hex
      have hex2 : fileExists (mkdirAll fs0 (dirOf (GetPath homeDir true))) (GetPath homeDir true) = true := hex
      simp [CreateTemplate, hex2, mkdirAll_entries]

theorem createTemplate_idempotent_witness :
    (CreateTemplate fsEmpty none false).1 = (GetPath none false, true, none) ∧
    (CreateTemplate fsEmpty none false).2.entries (GetPath none false) = .file templateContent ∧
    (CreateTemplate (CreateTemplate fsEmpty none false).2 none false).1 =
      (GetPath none false, false, none) :=
  ⟨(createTemplate_idempotent fsEmpty none false (by decide) (fun _ => rfl)).1,
   (createTemplate_idempotent fsEmpty none false (by decide) (fun _ => rfl)).2.1,
   (createTemplate_idempotent fsEmpty none false (by decide) (fun _ => rfl)).2.2.1⟩

/-- C6: LoadFromPath fails with not-found on an absent path, treats a
directory as not-found as well, fails with the parse error on malformed
content, and always returns a value (no panic). -/
theorem loadFromPath_errors (fs : FS) (path : Str) :
    (fs.entries path = .absent → LoadFromPath fs path = .error (.notFound path)) ∧
    (fs.entries path = .dir → LoadFromPath fs path = .error (.notFound path)) ∧
    (∀ raw, fs.entries path = .file (.malformed raw) → LoadFromPath fs path = .error .parseError) ∧
    ((∃ c, LoadFromPath fs path = .ok c) ∨ (∃ e, LoadFromPath fs path = .error e)) := by
  refine ⟨?_, ?_, ?_, ?_⟩
  · intro h
    simp [LoadFromPath, fileExists, h]
  · intro h
    simp [LoadFromPath, fileExists, h]
  · intro raw h
    simp [LoadFromPath, fileExists, readFile, h, unmarshalConfig]
  · cases h : LoadFromPath fs path with
    | ok c => exact Or.inl ⟨c, rfl⟩
    | error e => exact Or.inr ⟨e, rfl⟩

/-- A file system with a directory and a malformed file. -/
def fsMixed : FS :=
  { entries := fun p =>
      if p = str "somedir" then .dir
      else if p = str "bad.json" then .file (.malformed (str "invalid json"))
      else .absent,
    dirExists := fun _ => true }

theorem loadFromPath_errors_witness :
    LoadFromPath fsMixed (str "missing.json") = .error (.notFound (str "missing.json")) ∧
    LoadFromPath fsMixed (str "somedir") = .error (.notFound (str "somedir")) ∧
    LoadFromPath fsMixed (str "bad.json") = .error .parseError :=
  ⟨(loadFromPath_errors fsMixed (str "missing.json")).1 (by decide),
   (loadFromPath_errors fsMixed (str "somedir")).2.1 (by decide),
   (loadFromPath_errors fsMixed (str "bad.json")).2.2.1 (str "invalid json") (by decide)⟩


/-- Inserting a field whose key matches no recognized field, not even
case-insensitively, anywhere in the object does not change the decoding
result. -/
theorem unmarshalFields_skip_unknown (pre post : List (Str × JsonValue)) (k : Str)
    (v : JsonValue) (acc : Config)
    (h1 : keyMatches k keyWebhook = false) (h2 : keyMatches k keyUsername = false)
    (h3 : keyMatches k keyAvatar = false) :
    unmarshalFields (pre ++ (k, v) :: post) acc = unmarshalFields (pre ++ post) acc := by
  induction pre generalizing acc with
  | nil =>
    simp [unmarshalFields, applyField, h1, h2, h3]
  | cons hd tl ih =>
    obtain ⟨k2, v2⟩ := hd
    simp only [List.cons_append, unmarshalFields]
    cases ha : applyField k2 v2 acc with
    | none => rfl
    | some acc2 => exact ih acc2

/-- A field whose key does not match a given recognized key leaves that
key's target field of the accumulator unchanged. -/
theorem applyField_preserve (k : Str) (v : JsonValue) (acc acc2 : Config)
    (ha : applyField k v acc = some acc2) :
    (keyMatches k keyWebhook = false → acc2.WebhookURL = acc.WebhookURL) ∧
    (keyMatches k keyUsername = false → acc2.Username = acc.Username) ∧
    (keyMatches k keyAvatar = false → acc2.AvatarURL = acc.AvatarURL) := by
  unfold applyField at ha
  cases hk1 : keyMatches k keyWebhook with
  | true =>
    rw [hk1, if_pos rfl] at ha
    cases v with
    | nonString => exact Option.noConfusion ha
    | string s =>
      cases ha
      exact ⟨fun e => Bool.noConfusion e, fun _ => rfl, fun _ => rfl⟩
  | false =>
    rw [hk1, if_neg Bool.false_ne_true] at ha
    cases hk2 : keyMatches k keyUsername with
    | true =>
      rw [hk2, if_pos rfl] at ha
      cases v with
      | nonString => exact Option.noConfusion ha
      | string s =>
        cases ha
        exact ⟨fun _ => rfl, fun e => Bool.noConfusion e, fun _ => rfl⟩
    | false =>
      rw [hk2, if_neg Bool.false_ne_true] at ha
      cases hk3 : keyMatches k keyAvatar with
      | true =>
        rw [hk3, if_pos rfl] at ha
        cases v with
        | nonString => exact Option.noConfusion ha
        | string s =>
          cases ha
          exact ⟨fun _ => rfl, fun _ => rfl, fun e => Bool.noConfusion e⟩
      | false =>
        rw [hk3, if_neg Bool.false_ne_true] at ha
        cases ha
        exact ⟨fun _ => rfl, fun _ => rfl, fun _ => rfl⟩

/-- A field of the decoded config keeps its value from the starting
accumulator when no key of the object matches it, not even
case-insensitively. -/
theorem unmarshalFields_preserve (fields : List (Str × JsonValue)) :
    ∀ acc cfg, unmarshalFields fields acc = some cfg →
      ((∀ k2 ∈ fields.map Prod.fst, keyMatches k2 keyWebhook = false) →
        cfg.WebhookURL = acc.WebhookURL) ∧
      ((∀ k2 ∈ fields.map Prod.fst, keyMatches k2 keyUsername = false) →
        cfg.Username = acc.Username) ∧
      ((∀ k2 ∈ fields.map Prod.fst, keyMatches k2 keyAvatar = false) →
        cfg.AvatarURL = acc.AvatarURL) := by
  induction fields with
  | nil =>
    intro acc cfg h
    simp only [unmarshalFields, Option.some.injEq] at h
    subst h
    exact ⟨fun _ => rfl, fun _ => rfl, fun _ => rfl⟩
  | cons hd tl ih =>
    intro acc cfg h
    obtain ⟨k, v⟩ := hd
    simp only [unmarshalFields] at h
    cases ha : applyField k v acc with
    | none => rw [ha] at h; exact Option.noConfusion h
    | some acc2 =>
      rw [ha] at h
      obtain ⟨pw, pu, pa⟩ := applyField_preserve k v acc acc2 ha
      obtain ⟨iw, iu, ia⟩ := ih acc2 cfg h
      refine ⟨?_, ?_, ?_⟩
      · intro hmem
        have hk : keyMatches k keyWebhook = false :=
          hmem k (List.mem_cons_self k (tl.map Prod.fst))
        have ht : ∀ k2 ∈ tl.map Prod.fst, keyMatches k2 keyWebhook = false :=
          fun k2 hx => hmem k2 (List.mem_cons_of_mem k hx)
        rw [iw ht, pw hk]
      · intro hmem
        have hk : keyMatches k keyUsername = false :=
          hmem k (List.mem_cons_self k (tl.map Prod.fst))
        have ht : ∀ k2 ∈ tl.map Prod.fst, keyMatches k2 keyUsername = false :=
          fun k2 hx => hmem k2 (List.mem_cons_of_mem k hx)
        rw [iu ht, pu hk]
      · intro hmem
        have hk : keyMatches k keyAvatar = false :=
          hmem k (List.mem_cons_self k (tl.map Prod.fst))
        have ht : ∀ k2 ∈ tl.map Prod.fst, keyMatches k2 keyAvatar = false :=
          fun k2 hx => hmem k2 (List.mem_cons_of_mem k hx)
        rw [ia ht, pa hk]

/-- A case-variant of a recognized key is accepted, not skipped: the
matching is the case-insensitive one of `encoding/json`. -/
theorem unmarshal_case_variant :
    unmarshalConfig (.jsonObj [(str "Webhook_URL", JsonValue.string (str "x"))]) =
      some ⟨str "x", [], []⟩ := by
  decide

/-- C7: parsing is tolerant.  Unknown extra keys, those matching no
recognized field even case-insensitively, are ignored without error
wherever they occur; a recognized field no key of the object matches
stays at the empty string; and a saved file carries exactly the three
recognized keys, so unknown keys are never written back. -/
theorem parse_tolerant (fields : List (Str × JsonValue)) (cfg : Config) :
    (∀ (pre post : List (Str × JsonValue)) (k : Str) (v : JsonValue) (acc : Config),
        keyMatches k keyWebhook = false → keyMatches k keyUsername = false →
        keyMatches k keyAvatar = false →
        unmarshalFields (pre ++ (k, v) :: post) acc = unmarshalFields (pre ++ post) acc) ∧
    (unmarshalConfig (.jsonObj fields) = some cfg →
        ((∀ k2 ∈ fields.map Prod.fst, keyMatches k2 keyWebhook = false) →
          cfg.WebhookURL = []) ∧
        ((∀ k2 ∈ fields.map Prod.fst, keyMatches k2 keyUsername = false) →
          cfg.Username = []) ∧
        ((∀ k2 ∈ fields.map Prod.fst, keyMatches k2 keyAvatar = false) →
          cfg.AvatarURL = [])) ∧
    (∀ fields2, marshalConfig cfg = .jsonObj fields2 →
        fields2.map Prod.fst = [keyWebhook, keyUsername, keyAvatar]) := by
  refine ⟨?_, ?_, ?_⟩
  · intro pre post k v acc h1 h2 h3
    exact unmarshalFields_skip_unknown pre post k v acc h1 h2 h3
  · intro h
    exact unmarshalFields_preserve fields zeroConfig cfg h
  · intro fields2 hm
    unfold marshalConfig at hm
    injection hm with h2
    rw [← h2]
    rfl

theorem parse_tolerant_witness :
    unmarshalFields [(str "extra_key", JsonValue.nonString),
        (keyUsername, JsonValue.string (str "Bob"))] zeroConfig =
      unmarshalFields [(keyUsername, JsonValue.string (str "Bob"))] zeroConfig ∧
    Config.WebhookURL ⟨[], str "Bob", []⟩ = [] :=
  ⟨(parse_tolerant [] zeroConfig).1 [] [(keyUsername, JsonValue.string (str "Bob"))]
      (str "extra_key") JsonValue.nonString zeroConfig (by decide) (by decide) (by decide),
   ((parse_tolerant [(str "extra_key", JsonValue.nonString),
        (keyUsername, JsonValue.string (str "Bob"))] ⟨[], str "Bob", []⟩).2.1
      (by decide)).1 (by decide)⟩

/-- SaveToPath changes no directory: only a file entry is written. -/
theorem saveToPath_dirExists (fs : FS) (cfg : Config) (p : Str) :
    (SaveToPath fs cfg p).2.dirExists = fs.dirExists := by
  by_cases hd : fs.dirExists (dirOf p) = true
  · simp only [SaveToPath, writeFile, hd, if_true]
    cases he : fs.entries p <;> simp [he]
  · simp [SaveToPath, writeFile, hd]

/-- C8: Save to the global location creates the parent directory before
writing; Save to the local location performs no directory creation at
all, leaving the directory structure untouched. -/
theorem save_directory_effects (fs : FS) (homeDir : Option Str) (cfg : Config) :
    (Save fs homeDir cfg false).2.dirExists = fs.dirExists ∧
    (Save fs homeDir cfg true).2.dirExists (dirOf (GetPath homeDir true)) = true := by
  constructor
  · show (SaveToPath fs cfg (GetPath homeDir false)).2.dirExists = fs.dirExists
    exact saveToPath_dirExists fs cfg (GetPath homeDir false)
  · show (SaveToPath (mkdirAll fs (dirOf (GetPath homeDir true))) cfg
        (GetPath homeDir true)).2.dirExists (dirOf (GetPath homeDir true)) = true
    rw [saveToPath_dirExists]
    simp [mkdirAll]


/-- The webhook line occurs inside the full display output. -/
theorem webhookLine_infix_output (path : Str) (c : Config) :
    webhookLine c <:+: displayOutput path c :=
  ⟨str "\n📋 Current configuration (" ++ path ++ str "):\n",
   usernameLine c ++ avatarLine c, by simp [displayOutput, List.append_assoc]⟩

/-- The username line occurs inside the full display output. -/
theorem usernameLine_infix_output (path : Str) (c : Config) :
    usernameLine c <:+: displayOutput path c :=
  ⟨str "\n📋 Current configuration (" ++ path ++ str "):\n" ++ webhookLine c,
   avatarLine c, by simp [displayOutput, List.append_assoc]⟩

/-- The avatar line occurs inside the full display output. -/
theorem avatarLine_infix_output (path : Str) (c : Config) :
    avatarLine c <:+: displayOutput path c :=
  ⟨str "\n📋 Current configuration (" ++ path ++ str "):\n" ++ webhookLine c ++ usernameLine c,
   [], by simp [displayOutput, List.append_assoc]⟩

/-- An unset webhook field renders with the explicit not-set marker. -/
theorem webhookLine_not_set (c : Config) (h : c.WebhookURL = []) :
    str "Webhook URL: (not set)" <:+: webhookLine c := by
  rw [webhookLine, if_neg (by simp [h])]
  exact ⟨str "  🔗 ", str "\n", by decide⟩

/-- An unset username field renders with the explicit not-set marker. -/
theorem usernameLine_not_set (c : Config) (h : c.Username = []) :
    str "Username: (not set)" <:+: usernameLine c := by
  rw [usernameLine, if_neg (by simp [h])]
  exact ⟨str "  👤 ", str "\n", by decide⟩

/-- An unset avatar field renders with the explicit not-set marker. -/
theorem avatarLine_not_set (c : Config) (h : c.AvatarURL = []) :
    str "Avatar URL: (not set)" <:+: avatarLine c := by
  rw [avatarLine, if_neg (by simp [h])]
  exact ⟨str "  🖼️  ", str "\n", by decide⟩

/-- A set webhook field renders its masked value. -/
theorem webhookLine_masked (c : Config) (h : c.WebhookURL ≠ []) :
    str "Webhook URL: " ++ maskedWebhook c.WebhookURL <:+: webhookLine c := by
  rw [webhookLine, if_pos h]
  refine ⟨str "  🔗 ", str "\n", ?_⟩
  have hsplit : str "  🔗 Webhook URL: " = str "  🔗 " ++ str "Webhook URL: " := by decide
  rw [hsplit]
  simp [List.append_assoc]

/-- A set username field renders its value. -/
theorem usernameLine_value (c : Config) (h : c.Username ≠ []) :
    str "Username: " ++ c.Username ++ str "\n" <:+: usernameLine c := by
  rw [usernameLine, if_pos h]
  refine ⟨str "  👤 ", [], ?_⟩
  have hsplit : str "  👤 Username: " = str "  👤 " ++ str "Username: " := by decide
  rw [hsplit]
  simp [List.append_assoc]

/-- A set avatar field renders its value. -/
theorem avatarLine_value (c : Config) (h : c.AvatarURL ≠ []) :
    str "Avatar URL: " ++ c.AvatarURL ++ str "\n" <:+: avatarLine c := by
  rw [avatarLine, if_pos h]
  refine ⟨str "  🖼️  ", [], ?_⟩
  have hsplit : str "  🖼️  Avatar URL: " = str "  🖼️  " ++ str "Avatar URL: " := by decide
  rw [hsplit]
  simp [List.append_assoc]

/-- C9: DisplayConfig on a loadable path renders all three fields: each
unset field shows the explicit not-set marker, a set webhook shows its
masked value, and a webhook longer than 10 characters is masked down to
dots plus exactly its last 10 characters. -/
theorem displayConfig_rendering (fs : FS) (path : Str) (cfg : Config)
    (h : LoadFromPath fs path = .ok cfg) :
    DisplayConfig fs path = .ok (displayOutput path cfg) ∧
    (cfg.WebhookURL = [] → str "Webhook URL: (not set)" <:+: displayOutput path cfg) ∧
    (cfg.Username = [] → str "Username: (not set)" <:+: displayOutput path cfg) ∧
    (cfg.AvatarURL = [] → str "Avatar URL: (not set)" <:+: displayOutput path cfg) ∧
    (cfg.WebhookURL ≠ [] →
        str "Webhook URL: " ++ maskedWebhook cfg.WebhookURL <:+: displayOutput path cfg) ∧
    (cfg.Username ≠ [] →
        str "Username: " ++ cfg.Username ++ str "\n" <:+: displayOutput path cfg) ∧
    (cfg.AvatarURL ≠ [] →
        str "Avatar URL: " ++ cfg.AvatarURL ++ str "\n" <:+: displayOutput path cfg) ∧
    (cfg.WebhookURL.length > 10 →
        maskedWebhook cfg.WebhookURL =
          str "..." ++ cfg.WebhookURL.drop (cfg.WebhookURL.length - 10) ∧
        (cfg.WebhookURL.drop (cfg.WebhookURL.length - 10)).length = 10) := by
  refine ⟨by simp [DisplayConfig, h], ?_, ?_, ?_, ?_, ?_, ?_, ?_⟩
  · intro he
    exact (webhookLine_not_set cfg he).trans (webhookLine_infix_output path cfg)
  · intro he
    exact (usernameLine_not_set cfg he).trans (usernameLine_infix_output path cfg)
  · intro he
    exact (avatarLine_not_set cfg he).trans (avatarLine_infix_output path cfg)
  · intro he
    exact (webhookLine_masked cfg he).trans (webhookLine_infix_output path cfg)
  · intro he
    exact (usernameLine_value cfg he).trans (usernameLine_infix_output path cfg)
  · intro he
    exact (avatarLine_value cfg he).trans (avatarLine_infix_output path cfg)
  · intro hlen
    refine ⟨by rw [maskedWebhook, if_pos hlen], ?_⟩
    rw [List.length_drop]
    omega

/-- A file system holding one config file with a long webhook URL and the
other two fields unset. -/
def fsDisplay : FS :=
  { entries := fun p =>
      if p = configFileName then
        .file (.jsonObj [(keyWebhook, .string (str "https://discord.com/api/webhooks/1"))])
      else .absent,
    dirExists := fun _ => true }

theorem displayConfig_rendering_witness :
    DisplayConfig fsDisplay configFileName =
      .ok (displayOutput configFileName ⟨str "https://discord.com/api/webhooks/1", [], []⟩) ∧
    str "Username: (not set)" <:+:
      displayOutput configFileName ⟨str "https://discord.com/api/webhooks/1", [], []⟩ :=
  ⟨(displayConfig_rendering fsDisplay configFileName
      ⟨str "https://discord.com/api/webhooks/1", [], []⟩ (by rfl)).1,
   (displayConfig_rendering fsDisplay configFileName
      ⟨str "https://discord.com/api/webhooks/1", [], []⟩ (by rfl)).2.2.1 (by decide)⟩

/-- C10: a stat failure other than not-exist makes fileExists report the
file as existing, so Load selects that path and the failing read then
surfaces the read error, not the not-found error. -/
theorem fileExists_statErr_spec (fs : FS) (homeDir : Option Str)
    (hstat : fs.entries (GetPath homeDir false) = .statErr) :
    fileExists fs (GetPath homeDir false) = true ∧
    Load fs homeDir false = (none, GetPath homeDir false, some .readError) ∧
    (∀ p, Err.readError ≠ Err.notFound p) ∧
    (∀ p, fs.entries p = .statErr → fileExists fs p = true) := by
  have hl : fileExists fs (GetPath homeDir false) = true := by
    simp [fileExists, hstat]
  refine ⟨hl, ?_, fun p h => Err.noConfusion h, fun p h => by simp [fileExists, h]⟩
  simp [Load, LoadFromPath, hl, readFile, hstat]

/-- A file system where stat on the local config path fails with a
non-not-exist error. -/
def fsStat : FS :=
  { entries := fun p => if p = configFileName then .statErr else .absent,
    dirExists := fun _ => true }

theorem fileExists_statErr_spec_witness :
    fileExists fsStat (GetPath none false) = true ∧
    Load fsStat none false = (none, GetPath none false, some .readError) :=
  ⟨(fileExists_statErr_spec fsStat none (by decide)).1,
   (fileExists_statErr_spec fsStat none (by decide)).2.1⟩

end Owata
